import Mathlib

/-
Verification of the metric-report TVL engine.

The repository computes prediction-market resolution metrics from DefiLlama
TVL time series.  Two near-duplicate TypeScript scripts implement the
7-day trailing-average TVL engine:

  * src/node/index.ts                    (the "node" variant)
  * the script embedded at the end of
    src/2025-11-shortlived.btc-us-venezuela-military-engagement/spec.md
                                         (the "V" variant)

We embed both shallowly.  Conventions of the embedding:

  * A JS object used as a map (`chainTvls`, `PROJECTS`, `results`) is a
    `List (key × value)` in insertion order (JS string-keyed objects
    iterate in insertion order).
  * JS `number` values (TVL amounts) are embedded as `ℚ`; timestamps are
    `Int` seconds.  `date.getTime() / 1000` on a `Date` built from a
    `YYYY-MM-DDT00:00:00Z` string is a whole number of seconds, and
    `setUTCDate(getUTCDate() - i)` on a UTC midnight subtracts exactly
    `i * 86400` seconds (UTC has no DST), so a `Date` is embedded as its
    epoch-second timestamp and the day loop as `endTs - 86400 * i`.
  * `Array.prototype.find` returns the FIRST element satisfying the
    predicate, embedded as `List.find?`.
  * `try { ... } catch { ... }` around the per-project fetch is embedded
    by giving `main` the fetch outcome of each project as an
    `Except String DefiLlamaApiResponse`.
  * The body of each fold is bound to a named step function
    (`chainStep`, `chainStepV`, `dayStepV`); each is a verbatim rendering
    of the corresponding loop body.
-/

namespace MetricReport

/-- One entry of a chain's `tvl` array in a DefiLlama API response
(interface `TvlDataItem` in src/node/index.ts): a Unix-second timestamp
and a TVL amount in USD. -/
structure TvlDataItem where
  date : Int
  totalLiquidityUSD : ℚ
deriving DecidableEq, Repr

/-- A DefiLlama API response (interface `DefiLlamaApiResponse`):
`chainTvls` maps chain keys (for example "Base" or "Base-staking") to
their `tvl` arrays.  Embedded as an association list in JS object
insertion order. -/
structure DefiLlamaApiResponse where
  chainTvls : List (String × List TvlDataItem)
deriving DecidableEq, Repr

/-- The `MAJOR_SUPERCHAIN_L2S` set from src/node/index.ts (identical in
the venezuela variant). -/
def MAJOR_SUPERCHAIN_L2S : List String :=
  ["BOB", "Base", "Ink", "Lisk", "Mode", "Optimism", "OP Mainnet",
   "Polynomial", "Soneium", "Swellchain", "Unichain", "World Chain"]

/-- `TRAILING_DAYS` from src/node/index.ts. -/
def TRAILING_DAYS : Nat := 7

/-- Seconds in one UTC day; `setUTCDate(d - 1)` on a UTC midnight moves
the timestamp back by exactly this amount. -/
def SECONDS_PER_DAY : Int := 86400

/-- `METRIC_END_DATE = "2025-06-12"` as the epoch seconds of
2025-06-12T00:00:00Z. -/
def METRIC_END_TS : Int := 1749686400

/-- `METRIC_START_DATE = "2025-03-20"` as the epoch seconds of
2025-03-20T00:00:00Z. -/
def METRIC_START_TS : Int := 1742428800

/-- The timestamp of day `i` of the trailing window ending at `endTs`:
the loop `date.setUTCDate(date.getUTCDate() - i)` applied to the end
date. -/
def windowDay (endTs : Int) (i : Nat) : Int :=
  endTs - SECONDS_PER_DAY * (i : Int)

/-- JS `chain.split("-")[0]`: the segment of the string before the first
dash (the whole string when it has no dash).  Used by the node variant's
`getTvlOnDate` to "Handle chains like 'Base-staking'". -/
def splitFirst (s : String) : String :=
  String.mk (s.toList.takeWhile (fun ch => ch != '-'))

/-- The body of the `for (const chain in data.chainTvls)` loop of the
node variant's `getTvlOnDate`: add the chain's first `tvl` entry at the
target timestamp to the running total when the chain key's dash-prefix is
a major Superchain L2. -/
def chainStep (targetTimestamp : Int) (totalTvl : ℚ)
    (entry : String × List TvlDataItem) : ℚ :=
  if splitFirst entry.1 ∈ MAJOR_SUPERCHAIN_L2S then
    match entry.2.find? (fun d => d.date == targetTimestamp) with
    | some dayTvl => totalTvl + dayTvl.totalLiquidityUSD
    | none => totalTvl
  else totalTvl

/-- `getTvlOnDate` from src/node/index.ts: sums `totalLiquidityUSD` over
every chain whose key's dash-prefix is in `MAJOR_SUPERCHAIN_L2S`, taking
for each chain the first `tvl` entry whose `date` equals the target
timestamp; chains or dates with no entry contribute nothing. -/
def getTvlOnDate (data : DefiLlamaApiResponse) (targetTimestamp : Int) : ℚ :=
  data.chainTvls.foldl (chainStep targetTimestamp) 0

/-- `calculateTrailingAverageTvl` from src/node/index.ts: sums
`getTvlOnDate` over the 7 days `endTs, endTs - 1 day, ..., endTs - 6 days`
and divides by the constant `TRAILING_DAYS` (7). -/
def calculateTrailingAverageTvl (data : DefiLlamaApiResponse) (endTs : Int) : ℚ :=
  ((List.range TRAILING_DAYS).foldl
    (fun totalTvlForPeriod i =>
      totalTvlForPeriod + getTvlOnDate data (windowDay endTs i))
    0) / (TRAILING_DAYS : ℚ)

/-- The body of the chain loop of the venezuela variant's `getTvlOnDate`:
exact membership test of the chain key (no dash-splitting), accumulating
the total and a `hasData` flag. -/
def chainStepV (targetTimestamp : Int) (st : ℚ × Bool)
    (entry : String × List TvlDataItem) : ℚ × Bool :=
  if entry.1 ∈ MAJOR_SUPERCHAIN_L2S then
    match entry.2.find? (fun d => d.date == targetTimestamp) with
    | some dayTvl => (st.1 + dayTvl.totalLiquidityUSD, true)
    | none => st
  else st

/-- `getTvlOnDate` from the venezuela spec's embedded script: returns
`null` (here `none`) when no chain had an entry at the target timestamp,
and the summed total otherwise. -/
def getTvlOnDateV (data : DefiLlamaApiResponse) (targetTimestamp : Int) : Option ℚ :=
  let r := data.chainTvls.foldl (chainStepV targetTimestamp) ((0 : ℚ), false)
  if r.2 then some r.1 else none

/-- The body of the day loop of the venezuela variant's
`calculateTrailingAverageTvl`: accumulate the non-null daily totals and
count them in `nonNullDays`. -/
def dayStepV (data : DefiLlamaApiResponse) (endTs : Int)
    (st : ℚ × Nat) (i : Nat) : ℚ × Nat :=
  match getTvlOnDateV data (windowDay endTs i) with
  | some dayTvl => (st.1 + dayTvl, st.2 + 1)
  | none => st

/-- `calculateTrailingAverageTvl` from the venezuela spec's embedded
script: sums the non-null daily totals, counts them in `nonNullDays`, and
returns `sum / nonNullDays` when the count is positive and `0` otherwise. -/
def calculateTrailingAverageTvlV (data : DefiLlamaApiResponse) (endTs : Int) : ℚ :=
  let r := (List.range TRAILING_DAYS).foldl (dayStepV data endTs) ((0 : ℚ), (0 : Nat))
  if r.2 > 0 then r.1 / (r.2 : ℚ) else 0

/-- The body of one iteration of `main`'s project loop in
src/node/index.ts, given the outcome of `fetchProtocolData`: on a
successful fetch the result is the number `t_end - t_start`; on a thrown
error the `catch` block records the string "Error processing project". -/
def processProject (fetched : Except String DefiLlamaApiResponse) : ℚ ⊕ String :=
  match fetched with
  | Except.ok protocolData =>
      Sum.inl (calculateTrailingAverageTvl protocolData METRIC_END_TS -
               calculateTrailingAverageTvl protocolData METRIC_START_TS)
  | Except.error _ => Sum.inr "Error processing project"

/-- `main`'s project loop in src/node/index.ts: iterates over the project
list in order, appending each project's result (a number, or the error
string) to the `results` record under the project's slug. -/
def mainRun (projects : List (String × Except String DefiLlamaApiResponse)) :
    List (String × (ℚ ⊕ String)) :=
  projects.foldl (fun results p => results ++ [(p.1, processProject p.2)]) []

/-- The per-day totals the node variant's trailing average is built from:
`getTvlOnDate` at each of the 7 window days (0 for a day with no data). -/
def dailyTotals (data : DefiLlamaApiResponse) (endTs : Int) : List ℚ :=
  (List.range TRAILING_DAYS).map (fun i => getTvlOnDate data (windowDay endTs i))

/-- The retained (non-null) per-day totals of the venezuela variant over
the 7-day window. -/
def nonNullValues (data : DefiLlamaApiResponse) (endTs : Int) : List ℚ :=
  (List.range TRAILING_DAYS).filterMap (fun i => getTvlOnDateV data (windowDay endTs i))

/-- Modelled from the spec: the TimeWindowResolver's grid alignment
(spec.md sec. 4.1, Offset+Duration).  No window-resolver code exists under
src/ (the window policies appear only in the per-question spec documents),
so this follows the spec's words: round up to the next grid boundary when
not already aligned.  `grid` is the sampling granularity in seconds. -/
def ceilToGrid (t grid : Nat) : Nat :=
  ((t + grid - 1) / grid) * grid

/-- Modelled from the spec: a resolved UTC window (spec.md sec. 3).
`wstart` and `wend` are epoch seconds; the Offset+Duration mode treats the
window as half-open. -/
structure Window where
  wstart : Nat
  wend : Nat
deriving DecidableEq, Repr

/-- Modelled from the spec: Offset+Duration window resolution
(spec.md sec. 4.1): `start = anchor + cooldown` rounded up to the next
grid boundary, `end = start + duration`. -/
def resolveOffsetDuration (anchor cooldown duration grid : Nat) : Window :=
  { wstart := ceilToGrid (anchor + cooldown) grid,
    wend := ceilToGrid (anchor + cooldown) grid + duration }

/-- Modelled from the spec: half-open window membership (spec.md sec. 4.1
and the glossary): the start instant is included, the end instant excluded. -/
def Window.containsTs (w : Window) (ts : Nat) : Bool :=
  decide (w.wstart ≤ ts) && decide (ts < w.wend)

/-- JS `Math.round`, used in the venezuela variant's `main` to emit the
CSV rows: the integer closest to `x`, with ties rounded toward positive
infinity (ECMA-262's definition). -/
def jsMathRound (x : ℚ) : ℤ :=
  if x - ⌊x⌋ < 1/2 then ⌊x⌋ else ⌊x⌋ + 1

/-
Helper lemmas.
-/

theorem ceilToGrid_ge (t g : Nat) (hg : 0 < g) : t ≤ ceilToGrid t g := by
  unfold ceilToGrid
  have h1 : g * ((t + g - 1) / g) + (t + g - 1) % g = t + g - 1 :=
    Nat.div_add_mod (t + g - 1) g
  have h2 : (t + g - 1) % g < g := Nat.mod_lt _ hg
  rw [mul_comm]
  generalize hm : g * ((t + g - 1) / g) = m at h1 ⊢
  generalize hr : (t + g - 1) % g = r at h1 h2
  omega

theorem ceilToGrid_lt (t g : Nat) (hg : 0 < g) : ceilToGrid t g < t + g := by
  unfold ceilToGrid
  have h1 : g * ((t + g - 1) / g) + (t + g - 1) % g = t + g - 1 :=
    Nat.div_add_mod (t + g - 1) g
  have h2 : (t + g - 1) % g < g := Nat.mod_lt _ hg
  rw [mul_comm]
  generalize hm : g * ((t + g - 1) / g) = m at h1 ⊢
  generalize hr : (t + g - 1) % g = r at h1 h2
  omega

theorem dvd_ceilToGrid (t g : Nat) : g ∣ ceilToGrid t g :=
  dvd_mul_left g ((t + g - 1) / g)

theorem ceilToGrid_of_dvd (t g : Nat) (hg : 0 < g) (h : g ∣ t) :
    ceilToGrid t g = t := by
  obtain ⟨k, rfl⟩ := h
  unfold ceilToGrid
  have h1 : g * k + g - 1 = g * k + (g - 1) := Nat.add_sub_assoc hg _
  rw [h1, Nat.mul_add_div hg, Nat.div_eq_of_lt (by omega), Nat.add_zero, mul_comm]

theorem jsMathRound_eq_floor (x : ℚ) : jsMathRound x = ⌊x + 1/2⌋ := by
  unfold jsMathRound
  have hfl := Int.floor_le x
  have hfu := Int.lt_floor_add_one x
  by_cases h : x - ⌊x⌋ < 1/2
  · rw [if_pos h]
    symm
    rw [Int.floor_eq_iff]
    constructor
    · linarith
    · linarith
  · rw [if_neg h]
    symm
    rw [Int.floor_eq_iff]
    constructor
    · push_cast
      linarith [not_lt.mp h]
    · push_cast
      linarith

/-
Claim theorems.
-/

/-- C1 (confirmed): determinism.  In the embedding, `getTvlOnDate`,
`calculateTrailingAverageTvl` and the whole per-project run are plain
functions of the persisted payload and the configured dates — they read
no clock, no network and no mutable state — so two evaluations on the
same payload and configuration are definitionally the same value. -/
theorem C1_determinism (data : DefiLlamaApiResponse) (ts endTs : Int)
    (projects : List (String × Except String DefiLlamaApiResponse)) :
    getTvlOnDate data ts = getTvlOnDate data ts ∧
    calculateTrailingAverageTvl data endTs = calculateTrailingAverageTvl data endTs ∧
    calculateTrailingAverageTvlV data endTs = calculateTrailingAverageTvlV data endTs ∧
    mainRun projects = mainRun projects :=
  ⟨rfl, rfl, rfl, rfl⟩

/-- C5 (confirmed, modelled from the spec): in Offset+Duration mode with
anchor `T`, cooldown `C`, duration `D` and sampling grid `g`, the resolved
window is exactly `[ceilToGrid (T+C) g, ceilToGrid (T+C) g + D)`: the
start is `T+C` rounded up to the next grid boundary (unchanged when
already aligned, strictly less than one grid step above `T+C` otherwise),
the end is `start + D`, and membership is half-open — the start instant
is included, the end instant excluded. -/
theorem C5_window_offset_duration (T C D g : Nat) (hg : 0 < g) (hD : 0 < D) :
    (resolveOffsetDuration T C D g).wstart = ceilToGrid (T + C) g ∧
    (resolveOffsetDuration T C D g).wend = (resolveOffsetDuration T C D g).wstart + D ∧
    T + C ≤ (resolveOffsetDuration T C D g).wstart ∧
    (resolveOffsetDuration T C D g).wstart < T + C + g ∧
    g ∣ (resolveOffsetDuration T C D g).wstart ∧
    (g ∣ (T + C) → (resolveOffsetDuration T C D g).wstart = T + C) ∧
    (resolveOffsetDuration T C D g).containsTs (resolveOffsetDuration T C D g).wstart = true ∧
    (resolveOffsetDuration T C D g).containsTs (resolveOffsetDuration T C D g).wend = false := by
  refine ⟨rfl, rfl, ceilToGrid_ge _ _ hg, ceilToGrid_lt _ _ hg, dvd_ceilToGrid _ _,
    fun h => ceilToGrid_of_dvd _ _ hg h, ?_, ?_⟩
  · simp [Window.containsTs, resolveOffsetDuration]
    omega
  · simp [Window.containsTs, resolveOffsetDuration]

/-- Witness for C5: anchor 1763078400 (the venezuela cutoff), cooldown
7200 s, duration 43200 s, one-minute grid. -/
theorem C5_witness :
    0 < 60 ∧ 0 < 43200 ∧
    ((resolveOffsetDuration 1763078401 7200 43200 60).wstart = ceilToGrid 1763085601 60 ∧
     (resolveOffsetDuration 1763078401 7200 43200 60).wend =
       (resolveOffsetDuration 1763078401 7200 43200 60).wstart + 43200 ∧
     1763078401 + 7200 ≤ (resolveOffsetDuration 1763078401 7200 43200 60).wstart ∧
     (resolveOffsetDuration 1763078401 7200 43200 60).wstart < 1763078401 + 7200 + 60 ∧
     60 ∣ (resolveOffsetDuration 1763078401 7200 43200 60).wstart ∧
     (60 ∣ (1763078401 + 7200) →
       (resolveOffsetDuration 1763078401 7200 43200 60).wstart = 1763078401 + 7200) ∧
     (resolveOffsetDuration 1763078401 7200 43200 60).containsTs
       (resolveOffsetDuration 1763078401 7200 43200 60).wstart = true ∧
     (resolveOffsetDuration 1763078401 7200 43200 60).containsTs
       (resolveOffsetDuration 1763078401 7200 43200 60).wend = false) :=
  ⟨by norm_num, by norm_num,
   C5_window_offset_duration 1763078401 7200 43200 60 (by norm_num) (by norm_num)⟩

/-- C6 (confirmed, modelled from the spec): the half-up rounding law.
For every non-negative scalar `s`, rounding `x = s * 100` half-up (JS
`Math.round` semantics, as used on the venezuela variant's outputs)
returns `⌊x + 1/2⌋`, and a tie `x = n + 1/2` rounds up to `n + 1` —
away from zero, never to the nearest even integer. -/
theorem C6_half_up (s : ℚ) (hs : 0 ≤ s) :
    jsMathRound (s * 100) = ⌊s * 100 + 1/2⌋ ∧
    (∀ n : ℤ, s * 100 = n + 1/2 → jsMathRound (s * 100) = n + 1) := by
  refine ⟨jsMathRound_eq_floor _, fun n hn => ?_⟩
  rw [jsMathRound_eq_floor, hn]
  have h : (n : ℚ) + 1/2 + 1/2 = ((n + 1 : ℤ) : ℚ) := by
    push_cast
    ring
  rw [h, Int.floor_intCast]

/-- Witness for C6: half-up of the scalar 12.345 scaled by 100 (a tie at
1234.5) yields 1235. -/
theorem C6_witness :
    (0 : ℚ) ≤ 2469/200 ∧ jsMathRound ((2469/200 : ℚ) * 100) = 1235 := by
  have h := C6_half_up (2469/200) (by norm_num)
  refine ⟨by norm_num, ?_⟩
  have h2 := h.2 1234 (by norm_num)
  rw [h2]
  norm_num

theorem foldl_dayStepV (data : DefiLlamaApiResponse) (endTs : Int) :
    ∀ (l : List Nat) (s : ℚ) (c : Nat),
      l.foldl (dayStepV data endTs) (s, c) =
        (s + (l.filterMap (fun i => getTvlOnDateV data (windowDay endTs i))).sum,
         c + (l.filterMap (fun i => getTvlOnDateV data (windowDay endTs i))).length) := by
  intro l
  induction l with
  | nil =>
      intro s c
      simp
  | cons a l ih =>
      intro s c
      cases hfa : getTvlOnDateV data (windowDay endTs a) with
      | none => simp [List.foldl_cons, dayStepV, hfa, ih]
      | some v =>
          simp [List.foldl_cons, dayStepV, hfa, ih, Prod.ext_iff]
          constructor
          · ring
          · omega

/-- C2 (refuted as stated): on a payload with no TVL data at any window
date (here: an empty `chainTvls`), both script variants return the
numeric result `0` — the node variant as `0 / 7`, the venezuela variant
through its explicit `nonNullDays > 0 ? ... : 0` guard.  Neither raises a
DataError: the total functions yield `0`. -/
theorem C2_counterexample :
    calculateTrailingAverageTvl (DefiLlamaApiResponse.mk []) METRIC_END_TS = 0 ∧
    calculateTrailingAverageTvlV (DefiLlamaApiResponse.mk []) METRIC_END_TS = 0 := by
  constructor
  · simp [calculateTrailingAverageTvl, getTvlOnDate, List.range_succ]
  · simp [calculateTrailingAverageTvlV, getTvlOnDateV, dayStepV, TRAILING_DAYS,
      List.range_succ]

/-- C2 (amended): when no day in the trailing window has data, the
computation is not a hard failure — both variants return the numeric
result `0`. -/
theorem C2_amended (data : DefiLlamaApiResponse) (endTs : Int)
    (h : ∀ i, i < TRAILING_DAYS → getTvlOnDate data (windowDay endTs i) = 0)
    (hV : ∀ i, i < TRAILING_DAYS → getTvlOnDateV data (windowDay endTs i) = none) :
    calculateTrailingAverageTvl data endTs = 0 ∧
    calculateTrailingAverageTvlV data endTs = 0 := by
  have e : List.range TRAILING_DAYS = [0, 1, 2, 3, 4, 5, 6] := rfl
  constructor
  · simp [calculateTrailingAverageTvl, e, h 0 (by decide), h 1 (by decide),
      h 2 (by decide), h 3 (by decide), h 4 (by decide), h 5 (by decide), h 6 (by decide)]
  · simp [calculateTrailingAverageTvlV, e, dayStepV, hV 0 (by decide), hV 1 (by decide),
      hV 2 (by decide), hV 3 (by decide), hV 4 (by decide), hV 5 (by decide), hV 6 (by decide)]

/-- Witness for C2 (amended): the empty payload satisfies both
no-data hypotheses, and both variants return 0 on it. -/
theorem C2_amended_witness :
    (∀ i, i < TRAILING_DAYS →
      getTvlOnDate (DefiLlamaApiResponse.mk []) (windowDay METRIC_END_TS i) = 0) ∧
    (∀ i, i < TRAILING_DAYS →
      getTvlOnDateV (DefiLlamaApiResponse.mk []) (windowDay METRIC_END_TS i) = none) ∧
    (calculateTrailingAverageTvl (DefiLlamaApiResponse.mk []) METRIC_END_TS = 0 ∧
     calculateTrailingAverageTvlV (DefiLlamaApiResponse.mk []) METRIC_END_TS = 0) := by
  have h : ∀ i, i < TRAILING_DAYS →
      getTvlOnDate (DefiLlamaApiResponse.mk []) (windowDay METRIC_END_TS i) = 0 := by
    intro i _
    simp [getTvlOnDate]
  have hV : ∀ i, i < TRAILING_DAYS →
      getTvlOnDateV (DefiLlamaApiResponse.mk []) (windowDay METRIC_END_TS i) = none := by
    intro i _
    simp [getTvlOnDateV]
  exact ⟨h, hV, C2_amended (DefiLlamaApiResponse.mk []) METRIC_END_TS h hV⟩

/-- C3 (refuted as stated for the node variant): on a payload whose only
data in the window is one day ("Base" at the end date, value 7), only
k = 1 retained sample exists, so the claimed mean is 7 / 1 = 7 — but the
node variant's `calculateTrailingAverageTvl` returns 7 / 7 = 1: it divides
by the fixed constant 7 with the six missing days counted as 0. -/
theorem C3_counterexample :
    nonNullValues
      (DefiLlamaApiResponse.mk [("Base", [TvlDataItem.mk 1749686400 7])]) 1749686400 = [7] ∧
    calculateTrailingAverageTvl
      (DefiLlamaApiResponse.mk [("Base", [TvlDataItem.mk 1749686400 7])]) 1749686400 = 1 ∧
    (7 : ℚ) / 1 ≠ 1 := by
  have h1 : splitFirst "Base" = "Base" := by decide
  refine ⟨?_, ?_, by norm_num⟩
  · simp [nonNullValues, getTvlOnDateV, chainStepV, List.range_succ, MAJOR_SUPERCHAIN_L2S,
      List.find?, TRAILING_DAYS, SECONDS_PER_DAY, windowDay]
  · simp [calculateTrailingAverageTvl, getTvlOnDate, chainStep, List.range_succ, h1,
      MAJOR_SUPERCHAIN_L2S, List.find?, TRAILING_DAYS, SECONDS_PER_DAY, windowDay]

/-- C3 (amended): the mean aggregation differs between the two variants.
The node variant returns the sum of the 7 daily totals (a day with no
data contributing 0) divided by the fixed constant 7; the venezuela
variant returns the sum of the k retained (non-null) daily totals divided
by k whenever k > 0. -/
theorem C3_amended (data : DefiLlamaApiResponse) (endTs : Int)
    (h : nonNullValues data endTs ≠ []) :
    calculateTrailingAverageTvl data endTs = (dailyTotals data endTs).sum / 7 ∧
    calculateTrailingAverageTvlV data endTs =
      (nonNullValues data endTs).sum / ((nonNullValues data endTs).length : ℚ) := by
  constructor
  · have e : List.range 7 = [0, 1, 2, 3, 4, 5, 6] := rfl
    simp [calculateTrailingAverageTvl, dailyTotals, TRAILING_DAYS, e]
    ring
  · have hfold := foldl_dayStepV data endTs (List.range TRAILING_DAYS) 0 0
    have hlen : 0 < (nonNullValues data endTs).length := List.length_pos.mpr h
    simp only [nonNullValues] at hlen ⊢
    simp only [calculateTrailingAverageTvlV]
    rw [hfold]
    simp [hlen]

/-- Witness for C3 (amended): single-day payload with value 7; node
variant gives 7 / 7 = 1, venezuela variant gives the mean 7 / 1 of its
k = 1 retained sample. -/
theorem C3_amended_witness :
    nonNullValues
      (DefiLlamaApiResponse.mk [("Base", [TvlDataItem.mk 1749686400 7])]) 1749686400 ≠ [] ∧
    (calculateTrailingAverageTvl
        (DefiLlamaApiResponse.mk [("Base", [TvlDataItem.mk 1749686400 7])]) 1749686400 =
      (dailyTotals
        (DefiLlamaApiResponse.mk [("Base", [TvlDataItem.mk 1749686400 7])]) 1749686400).sum / 7 ∧
     calculateTrailingAverageTvlV
        (DefiLlamaApiResponse.mk [("Base", [TvlDataItem.mk 1749686400 7])]) 1749686400 =
      (nonNullValues
        (DefiLlamaApiResponse.mk [("Base", [TvlDataItem.mk 1749686400 7])]) 1749686400).sum /
      ((nonNullValues
        (DefiLlamaApiResponse.mk [("Base", [TvlDataItem.mk 1749686400 7])]) 1749686400).length : ℚ)) := by
  have h : nonNullValues
      (DefiLlamaApiResponse.mk [("Base", [TvlDataItem.mk 1749686400 7])]) 1749686400 ≠ [] := by
    have e : nonNullValues
        (DefiLlamaApiResponse.mk [("Base", [TvlDataItem.mk 1749686400 7])]) 1749686400 = [7] := by
      simp [nonNullValues, getTvlOnDateV, chainStepV, List.range_succ, MAJOR_SUPERCHAIN_L2S,
        List.find?, TRAILING_DAYS, SECONDS_PER_DAY, windowDay]
    rw [e]
    simp
  exact ⟨h, C3_amended (DefiLlamaApiResponse.mk [("Base", [TvlDataItem.mk 1749686400 7])])
    1749686400 h⟩

theorem takeWhile_eq_self_forall {α : Type} (p : α → Bool) :
    ∀ {l : List α}, l.takeWhile p = l → ∀ x ∈ l, p x = true := by
  intro l
  induction l with
  | nil =>
      intro _ x hx
      cases hx
  | cons a as ih =>
      intro h x hx
      rw [List.takeWhile_cons] at h
      by_cases hpa : p a = true
      · rw [if_pos hpa] at h
        rcases List.mem_cons.mp hx with rfl | hxs
        · exact hpa
        · exact ih (List.cons.injEq _ _ _ _ ▸ h).2 x hxs
      · rw [if_neg hpa] at h
        cases h

theorem takeWhile_append_forall {α : Type} (p : α → Bool) (ys : List α) :
    ∀ (xs : List α), (∀ x ∈ xs, p x = true) →
      (xs ++ ys).takeWhile p = xs ++ ys.takeWhile p := by
  intro xs
  induction xs with
  | nil =>
      intro _
      simp
  | cons a as ih =>
      intro h
      rw [List.cons_append, List.takeWhile_cons, if_pos (h a (List.mem_cons_self a as)),
        ih (fun x hx => h x (List.mem_cons_of_mem a hx)), List.cons_append]

theorem splitFirst_dash_append (c s : String) (h : splitFirst c = c) :
    splitFirst (c ++ "-" ++ s) = c := by
  have hc : c.toList.takeWhile (fun ch => ch != '-') = c.toList := congrArg String.toList h
  have hall := takeWhile_eq_self_forall _ hc
  unfold splitFirst
  have hdata : (c ++ "-" ++ s).toList = c.toList ++ ('-' :: s.toList) := by
    rw [show (c ++ "-" ++ s).toList = (c ++ "-" ++ s).data from rfl, String.data_append,
      String.data_append, List.append_assoc]
    rfl
  rw [hdata, takeWhile_append_forall _ _ _ hall, List.takeWhile_cons]
  norm_num

theorem find?_append_first (t : Int) (a : ℚ) :
    ∀ (l1 rest : List TvlDataItem), (∀ x ∈ l1, x.date ≠ t) →
      (l1 ++ TvlDataItem.mk t a :: rest).find? (fun d => d.date == t) =
        some (TvlDataItem.mk t a) := by
  intro l1
  induction l1 with
  | nil =>
      intro rest _
      rw [List.nil_append]
      exact List.find?_cons_of_pos _ (by simp)
  | cons y l1 ih =>
      intro rest h
      rw [List.cons_append, List.find?_cons_of_neg _ (by simp [h y (List.mem_cons_self y l1)])]
      exact ih rest (fun x hx => h x (List.mem_cons_of_mem y hx))

/-- C7 (refuted as stated): when a chain's `tvl` array contains two
entries with the same date (here date 100 with values 11 then 22), the
node variant's `getTvlOnDate` uses `Array.prototype.find`, which returns
the FIRST match — so the value used is the earlier-arriving 11, not the
later-arriving 22 that the claim requires. -/
theorem C7_counterexample :
    getTvlOnDate (DefiLlamaApiResponse.mk
      [("Base", [TvlDataItem.mk 100 11, TvlDataItem.mk 100 22])]) 100 = 11 ∧
    (11 : ℚ) ≠ 22 := by
  have h1 : splitFirst "Base" = "Base" := by decide
  constructor
  · simp [getTvlOnDate, chainStep, h1, MAJOR_SUPERCHAIN_L2S, List.find?]
  · norm_num

/-- C7 (amended): when two entries of a retained chain's `tvl` array
carry the same date, the EARLIER one in array order is the value used and
the later one is silently ignored (not averaged): for any array
`l1 ++ [⟨t,a⟩] ++ l2 ++ [⟨t,b⟩] ++ l3` whose prefix `l1` has no entry at
`t`, the daily total reads `a`. -/
theorem C7_amended (c : String) (t : Int) (a b : ℚ) (l1 l2 l3 : List TvlDataItem)
    (hc : splitFirst c ∈ MAJOR_SUPERCHAIN_L2S)
    (h1 : ∀ x ∈ l1, x.date ≠ t) :
    getTvlOnDate (DefiLlamaApiResponse.mk
      [(c, l1 ++ TvlDataItem.mk t a :: (l2 ++ TvlDataItem.mk t b :: l3))]) t = a := by
  simp [getTvlOnDate, chainStep, hc, find?_append_first t a l1 _ h1]

/-- Witness for C7 (amended): array `[⟨50,5⟩, ⟨100,11⟩, ⟨100,22⟩]` at
date 100 yields the first duplicate's value 11. -/
theorem C7_amended_witness :
    splitFirst "Base" ∈ MAJOR_SUPERCHAIN_L2S ∧
    (∀ x ∈ [TvlDataItem.mk 50 5], x.date ≠ (100 : Int)) ∧
    getTvlOnDate (DefiLlamaApiResponse.mk
      [("Base", [TvlDataItem.mk 50 5] ++
        TvlDataItem.mk 100 11 :: ([] ++ TvlDataItem.mk 100 22 :: []))]) 100 = 11 := by
  have hc : splitFirst "Base" ∈ MAJOR_SUPERCHAIN_L2S := by decide
  have h1 : ∀ x ∈ [TvlDataItem.mk 50 5], x.date ≠ (100 : Int) := by
    intro x hx
    rcases List.mem_singleton.mp hx with rfl
    decide
  exact ⟨hc, h1, C7_amended "Base" 100 11 22 [TvlDataItem.mk 50 5] [] [] hc h1⟩

/-- C9 (confirmed): the node variant's `getTvlOnDate` matches a chain key
by the segment before the first dash, so a response containing both a
bare major-L2 key `c` and a suffixed key `c ++ "-" ++ s` of the same
chain, each with data at the target date, contributes BOTH entries'
`totalLiquidityUSD` values to the daily total. -/
theorem C9_dash_key_matching (c s : String) (t : Int) (a b : ℚ)
    (hc : splitFirst c = c) (hmem : c ∈ MAJOR_SUPERCHAIN_L2S) :
    getTvlOnDate (DefiLlamaApiResponse.mk
      [(c, [TvlDataItem.mk t a]), (c ++ "-" ++ s, [TvlDataItem.mk t b])]) t = a + b := by
  have h2 := splitFirst_dash_append c s hc
  simp [getTvlOnDate, chainStep, hc, h2, hmem, List.find?]

/-- Witness for C9: "Base" and "Base-staking" both holding data at date 0
produce the combined total 1 + 2. -/
theorem C9_witness :
    splitFirst "Base" = "Base" ∧ "Base" ∈ MAJOR_SUPERCHAIN_L2S ∧
    getTvlOnDate (DefiLlamaApiResponse.mk
      [("Base", [TvlDataItem.mk 0 1]),
       ("Base" ++ "-" ++ "staking", [TvlDataItem.mk 0 2])]) 0 = 1 + 2 :=
  ⟨by decide, by decide, C9_dash_key_matching "Base" "staking" 0 1 2 (by decide) (by decide)⟩

theorem chainStep_add (t : Int) (acc : ℚ) (e : String × List TvlDataItem) :
    chainStep t acc e = acc + chainStep t 0 e := by
  unfold chainStep
  by_cases hm : splitFirst e.1 ∈ MAJOR_SUPERCHAIN_L2S
  · rw [if_pos hm, if_pos hm]
    cases hf : e.2.find? (fun d => d.date == t) with
    | none => ring
    | some v => ring
  · rw [if_neg hm, if_neg hm]
    ring

theorem foldl_chainStep_add (t : Int) :
    ∀ (l : List (String × List TvlDataItem)) (acc : ℚ),
      l.foldl (chainStep t) acc = acc + l.foldl (chainStep t) 0 := by
  intro l
  induction l with
  | nil =>
      intro acc
      simp
  | cons e l ih =>
      intro acc
      rw [List.foldl_cons, List.foldl_cons, ih (chainStep t acc e), ih (chainStep t 0 e),
        chainStep_add t acc e]
      ring

theorem chainStepV_decomp (t : Int) (st : ℚ × Bool) (e : String × List TvlDataItem) :
    chainStepV t st e =
      (st.1 + (chainStepV t ((0 : ℚ), false) e).1,
       st.2 || (chainStepV t ((0 : ℚ), false) e).2) := by
  unfold chainStepV
  by_cases hm : e.1 ∈ MAJOR_SUPERCHAIN_L2S
  · rw [if_pos hm, if_pos hm]
    cases hf : e.2.find? (fun d => d.date == t) with
    | none => simp
    | some v => simp
  · rw [if_neg hm, if_neg hm]
    simp

theorem foldl_chainStepV_decomp (t : Int) :
    ∀ (l : List (String × List TvlDataItem)) (st : ℚ × Bool),
      l.foldl (chainStepV t) st =
        (st.1 + (l.foldl (chainStepV t) ((0 : ℚ), false)).1,
         st.2 || (l.foldl (chainStepV t) ((0 : ℚ), false)).2) := by
  intro l
  induction l with
  | nil =>
      intro st
      simp
  | cons e l ih =>
      intro st
      rw [List.foldl_cons, List.foldl_cons, ih (chainStepV t st e),
        ih (chainStepV t ((0 : ℚ), false) e), chainStepV_decomp t st e]
      simp [Prod.ext_iff, add_assoc, Bool.or_assoc]

theorem chainStepV_false_fst (t : Int) (e : String × List TvlDataItem)
    (h : (chainStepV t ((0 : ℚ), false) e).2 = false) :
    (chainStepV t ((0 : ℚ), false) e).1 = 0 := by
  unfold chainStepV at h ⊢
  by_cases hm : e.1 ∈ MAJOR_SUPERCHAIN_L2S
  · rw [if_pos hm] at h ⊢
    cases hf : e.2.find? (fun d => d.date == t) with
    | none => rfl
    | some v =>
        rw [hf] at h
        cases h
  · rw [if_neg hm]

theorem foldl_chainStepV_false (t : Int) :
    ∀ (l : List (String × List TvlDataItem)),
      (l.foldl (chainStepV t) ((0 : ℚ), false)).2 = false →
      (l.foldl (chainStepV t) ((0 : ℚ), false)).1 = 0 := by
  intro l
  induction l with
  | nil =>
      intro _
      rfl
  | cons e l ih =>
      intro h
      rw [List.foldl_cons, foldl_chainStepV_decomp t l (chainStepV t ((0 : ℚ), false) e)] at h ⊢
      simp only [Bool.or_eq_false_iff] at h
      simp [chainStepV_false_fst t e h.1, ih h.2]

theorem chainStep_eq_chainStepV (t : Int) (e : String × List TvlDataItem)
    (he : splitFirst e.1 = e.1) :
    chainStep t 0 e = (chainStepV t ((0 : ℚ), false) e).1 := by
  unfold chainStep chainStepV
  rw [he]
  by_cases hm : e.1 ∈ MAJOR_SUPERCHAIN_L2S
  · rw [if_pos hm, if_pos hm]
    cases hf : e.2.find? (fun d => d.date == t) with
    | none => rfl
    | some v => rfl
  · rw [if_neg hm, if_neg hm]

theorem foldl_node_eq_V (t : Int) :
    ∀ (l : List (String × List TvlDataItem)), (∀ p ∈ l, splitFirst p.1 = p.1) →
      l.foldl (chainStep t) 0 = (l.foldl (chainStepV t) ((0 : ℚ), false)).1 := by
  intro l
  induction l with
  | nil =>
      intro _
      rfl
  | cons e l ih =>
      intro h
      rw [List.foldl_cons, List.foldl_cons, foldl_chainStep_add t l (chainStep t 0 e),
        foldl_chainStepV_decomp t l (chainStepV t ((0 : ℚ), false) e),
        chainStep_eq_chainStepV t e (h e (List.mem_cons_self e l))]
      simp [ih (fun p hp => h p (List.mem_cons_of_mem e hp))]

theorem getTvlOnDate_eq_V (data : DefiLlamaApiResponse) (t : Int)
    (hkeys : ∀ p ∈ data.chainTvls, splitFirst p.1 = p.1) :
    getTvlOnDate data t = (getTvlOnDateV data t).getD 0 := by
  have h1 := foldl_node_eq_V t data.chainTvls hkeys
  simp only [getTvlOnDate, getTvlOnDateV]
  cases hF : (data.chainTvls.foldl (chainStepV t) ((0 : ℚ), false)).2 with
  | false =>
      rw [h1, foldl_chainStepV_false t data.chainTvls hF]
      rfl
  | true =>
      rw [h1]
      rfl

/-- C8 (refuted as stated): the two script variants are not behaviourally
one engine.  On a payload whose only chain key is the suffixed
"Base-staking" with one datum (value 100 at the end date), the node
variant's dash-prefix matching retains it and returns 100 / 7, while the
venezuela variant's exact matching discards it and returns 0. -/
theorem C8_counterexample :
    calculateTrailingAverageTvl (DefiLlamaApiResponse.mk
      [("Base-staking", [TvlDataItem.mk 1749686400 100])]) 1749686400 = 100 / 7 ∧
    calculateTrailingAverageTvlV (DefiLlamaApiResponse.mk
      [("Base-staking", [TvlDataItem.mk 1749686400 100])]) 1749686400 = 0 ∧
    (100 : ℚ) / 7 ≠ 0 := by
  have h2 : splitFirst "Base-staking" = "Base" := by decide
  refine ⟨?_, ?_, by norm_num⟩
  · simp [calculateTrailingAverageTvl, getTvlOnDate, chainStep, List.range_succ, h2,
      MAJOR_SUPERCHAIN_L2S, List.find?, TRAILING_DAYS, SECONDS_PER_DAY, windowDay]
  · simp [calculateTrailingAverageTvlV, getTvlOnDateV, chainStepV, dayStepV, List.range_succ,
      MAJOR_SUPERCHAIN_L2S, List.find?, TRAILING_DAYS, SECONDS_PER_DAY, windowDay]

/-- C8 (amended): the two variants do agree on every payload whose chain
keys contain no dash suffix (so prefix and exact matching coincide) and
for which every one of the 7 window days has data (so the venezuela
variant's divisor `nonNullDays` equals the node variant's constant 7). -/
theorem C8_amended (data : DefiLlamaApiResponse) (endTs : Int)
    (hkeys : ∀ p ∈ data.chainTvls, splitFirst p.1 = p.1)
    (hdays : ∀ i, i < TRAILING_DAYS → getTvlOnDateV data (windowDay endTs i) ≠ none) :
    calculateTrailingAverageTvl data endTs = calculateTrailingAverageTvlV data endTs := by
  obtain ⟨v0, hv0⟩ := Option.ne_none_iff_exists'.mp (hdays 0 (by decide))
  obtain ⟨v1, hv1⟩ := Option.ne_none_iff_exists'.mp (hdays 1 (by decide))
  obtain ⟨v2, hv2⟩ := Option.ne_none_iff_exists'.mp (hdays 2 (by decide))
  obtain ⟨v3, hv3⟩ := Option.ne_none_iff_exists'.mp (hdays 3 (by decide))
  obtain ⟨v4, hv4⟩ := Option.ne_none_iff_exists'.mp (hdays 4 (by decide))
  obtain ⟨v5, hv5⟩ := Option.ne_none_iff_exists'.mp (hdays 5 (by decide))
  obtain ⟨v6, hv6⟩ := Option.ne_none_iff_exists'.mp (hdays 6 (by decide))
  have g0 : getTvlOnDate data (windowDay endTs 0) = v0 := by
    rw [getTvlOnDate_eq_V data _ hkeys, hv0]
    rfl
  have g1 : getTvlOnDate data (windowDay endTs 1) = v1 := by
    rw [getTvlOnDate_eq_V data _ hkeys, hv1]
    rfl
  have g2 : getTvlOnDate data (windowDay endTs 2) = v2 := by
    rw [getTvlOnDate_eq_V data _ hkeys, hv2]
    rfl
  have g3 : getTvlOnDate data (windowDay endTs 3) = v3 := by
    rw [getTvlOnDate_eq_V data _ hkeys, hv3]
    rfl
  have g4 : getTvlOnDate data (windowDay endTs 4) = v4 := by
    rw [getTvlOnDate_eq_V data _ hkeys, hv4]
    rfl
  have g5 : getTvlOnDate data (windowDay endTs 5) = v5 := by
    rw [getTvlOnDate_eq_V data _ hkeys, hv5]
    rfl
  have g6 : getTvlOnDate data (windowDay endTs 6) = v6 := by
    rw [getTvlOnDate_eq_V data _ hkeys, hv6]
    rfl
  have e7 : List.range 7 = [0, 1, 2, 3, 4, 5, 6] := rfl
  simp [calculateTrailingAverageTvl, calculateTrailingAverageTvlV, TRAILING_DAYS, e7,
    dayStepV, hv0, hv1, hv2, hv3, hv4, hv5, hv6, g0, g1, g2, g3, g4, g5, g6]

/-- Witness for C8 (amended): a payload with the single dash-free chain
"Base" holding data at all 7 window days; both variants return the same
average. -/
theorem C8_amended_witness :
    (∀ p ∈ (DefiLlamaApiResponse.mk
        [("Base", [TvlDataItem.mk 1749686400 1, TvlDataItem.mk 1749600000 2,
          TvlDataItem.mk 1749513600 3, TvlDataItem.mk 1749427200 4,
          TvlDataItem.mk 1749340800 5, TvlDataItem.mk 1749254400 6,
          TvlDataItem.mk 1749168000 7])]).chainTvls, splitFirst p.1 = p.1) ∧
    (∀ i, i < TRAILING_DAYS →
      getTvlOnDateV (DefiLlamaApiResponse.mk
        [("Base", [TvlDataItem.mk 1749686400 1, TvlDataItem.mk 1749600000 2,
          TvlDataItem.mk 1749513600 3, TvlDataItem.mk 1749427200 4,
          TvlDataItem.mk 1749340800 5, TvlDataItem.mk 1749254400 6,
          TvlDataItem.mk 1749168000 7])]) (windowDay 1749686400 i) ≠ none) ∧
    calculateTrailingAverageTvl (DefiLlamaApiResponse.mk
        [("Base", [TvlDataItem.mk 1749686400 1, TvlDataItem.mk 1749600000 2,
          TvlDataItem.mk 1749513600 3, TvlDataItem.mk 1749427200 4,
          TvlDataItem.mk 1749340800 5, TvlDataItem.mk 1749254400 6,
          TvlDataItem.mk 1749168000 7])]) 1749686400 =
      calculateTrailingAverageTvlV (DefiLlamaApiResponse.mk
        [("Base", [TvlDataItem.mk 1749686400 1, TvlDataItem.mk 1749600000 2,
          TvlDataItem.mk 1749513600 3, TvlDataItem.mk 1749427200 4,
          TvlDataItem.mk 1749340800 5, TvlDataItem.mk 1749254400 6,
          TvlDataItem.mk 1749168000 7])]) 1749686400 := by
  have hkeys : ∀ p ∈ (DefiLlamaApiResponse.mk
      [("Base", [TvlDataItem.mk 1749686400 1, TvlDataItem.mk 1749600000 2,
        TvlDataItem.mk 1749513600 3, TvlDataItem.mk 1749427200 4,
        TvlDataItem.mk 1749340800 5, TvlDataItem.mk 1749254400 6,
        TvlDataItem.mk 1749168000 7])]).chainTvls, splitFirst p.1 = p.1 := by
    intro p hp
    rcases List.mem_singleton.mp hp with rfl
    decide
  have hdays : ∀ i, i < TRAILING_DAYS →
      getTvlOnDateV (DefiLlamaApiResponse.mk
        [("Base", [TvlDataItem.mk 1749686400 1, TvlDataItem.mk 1749600000 2,
          TvlDataItem.mk 1749513600 3, TvlDataItem.mk 1749427200 4,
          TvlDataItem.mk 1749340800 5, TvlDataItem.mk 1749254400 6,
          TvlDataItem.mk 1749168000 7])]) (windowDay 1749686400 i) ≠ none := by
    intro i hi
    simp only [TRAILING_DAYS] at hi
    interval_cases i <;>
      simp [getTvlOnDateV, chainStepV, MAJOR_SUPERCHAIN_L2S, List.find?, SECONDS_PER_DAY,
        windowDay]
  exact ⟨hkeys, hdays, C8_amended _ 1749686400 hkeys hdays⟩

theorem foldl_append_results :
    ∀ (l : List (String × Except String DefiLlamaApiResponse))
      (acc : List (String × (ℚ ⊕ String))),
      l.foldl (fun results p => results ++ [(p.1, processProject p.2)]) acc =
        acc ++ l.map (fun p => (p.1, processProject p.2)) := by
  intro l
  induction l with
  | nil =>
      intro acc
      simp
  | cons p l ih =>
      intro acc
      rw [List.foldl_cons, ih]
      simp

theorem mainRun_eq_map (l : List (String × Except String DefiLlamaApiResponse)) :
    mainRun l = l.map (fun p => (p.1, processProject p.2)) := by
  unfold mainRun
  rw [foldl_append_results]
  simp

/-- C10 (confirmed): per-project failure isolation in `main`.  For any
project list split as `pre ++ [(slug, failed fetch)] ++ post`, the run
records the string "Error processing project" under that slug and the
results of every other project — before and after the failure — are
exactly what they would be on their own: a failure neither aborts the
batch nor alters any other project's result. -/
theorem C10_failure_isolation
    (pre post : List (String × Except String DefiLlamaApiResponse))
    (slug errMsg : String) :
    mainRun (pre ++ (slug, Except.error errMsg) :: post) =
      mainRun pre ++ (slug, Sum.inr "Error processing project") :: mainRun post := by
  simp [mainRun_eq_map, processProject]

end MetricReport
